import Mathlib

/-
  Shallow embedding of the cost-manager ledger and reporting engine of
  src/src/lib/idb.js (the module actually imported by the application; the
  files under src/unnamed and src/vanilla-test are earlier variants of the
  same module and are noted where they diverge).

  Modelling conventions:
  * A JS number that has gone through the coercion Number(...) is modelled as
    Option ℚ: some q is a finite value, none is a non-finite value
    (NaN or an infinity). The code only ever distinguishes finite from
    non-finite, via Number.isFinite.
  * A rate table (the parsed rates JSON) is a total function
    String → Option ℚ: some r when the key is present with a numeric value
    (typeof rates[k] === "number"), none when the key is absent or its value
    is not a number.
  * A thrown exception / rejected promise is modelled with Except String.
  * The IndexedDB object store "costs" is modelled as a List CostRecord in
    insertion order, together with the next auto-increment key.
  * fetchRates is I/O; the table it would return is passed as an explicit
    rates argument to the read operations. The code fetches only when
    needsRates holds, and in that case uses the table exactly as fetched.
-/

namespace CostManager

/-- A JS number after Number coercion: some q when finite, none when NaN or
an infinity. -/
abbrev JSNum := Option ℚ

/-- Parsed rates JSON: some r when the currency key is present with a numeric
value, none when absent or non-numeric. -/
abbrev RateTable := String → Option ℚ

/-- normalizeCurrency from src/src/lib/idb.js lines 22-25: maps the alias
"EUR" to "EURO", every other string is returned verbatim. -/
def normalizeCurrency (c : String) : String :=
  if c = "EUR" then "EURO" else c

/-- convert from src/src/lib/idb.js lines 39-56. Order of checks follows the
source: both currencies normalized, then the finiteness guard on the amount
(non-finite returns 0), then the same-currency early return, then the rate
lookups with the unsupported-currency throw, then the two-hop arithmetic
n / fromRate * toRate. -/
def convert (sum : JSNum) (fromCurrency toCurrency : String) (rates : RateTable) :
    Except String ℚ :=
  let fromC := normalizeCurrency fromCurrency
  let toC := normalizeCurrency toCurrency
  match sum with
  | none => Except.ok 0
  | some n =>
    if fromC = toC then Except.ok n
    else
      match rates fromC, rates toC with
      | some fromRate, some toRate => Except.ok (n / fromRate * toRate)
      | _, _ => Except.error "Unsupported currency in rates response."

/-- The components of the JS Date value read by addCost: toISOString,
getFullYear, getMonth (0-based) and getDate. -/
structure JSDate where
  iso : String
  year : Int
  month0 : Int
  day : Int
deriving Repr, DecidableEq

/-- A record of the "costs" object store. id is the auto-increment key. -/
structure CostRecord where
  id : Nat
  sum : JSNum
  currency : String
  category : String
  description : String
  createdAt : String
  year : Int
  month : Int
  day : Int
deriving Repr, DecidableEq

/-- The argument of addCost after the coercions the source applies to each
field: sum is Number(cost.sum), the other three are String(...) values. -/
structure CostInput where
  sum : JSNum
  currency : String
  category : String
  description : String
deriving Repr, DecidableEq

/-- The object addCost returns (src/src/lib/idb.js lines 98-103): an object
literal with exactly the keys sum, currency, category, description. Reading
any other key of it (id, createdAt, ...) yields undefined, modelled with the
Option fields set to none. -/
structure AddCostResult where
  sum : JSNum
  currency : String
  category : String
  description : String
  id : Option Nat
  createdAt : Option String
deriving Repr, DecidableEq

/-- The costToSave object built by addCost (src/src/lib/idb.js lines 80-91):
the four coerced input fields plus the internal fields stamped from the
single Date value read at entry; month is getMonth() + 1, hence 1-based. -/
def costToSave (nextId : Nat) (cost : CostInput) (now : JSDate) : CostRecord :=
  { id := nextId
    sum := cost.sum
    currency := cost.currency
    category := cost.category
    description := cost.description
    createdAt := now.iso
    year := now.year
    month := now.month0 + 1
    day := now.day }

/-- addCost from src/src/lib/idb.js lines 77-104: appends costToSave to the
store (store.add with auto-increment key nextId) and returns only the four
required fields; the generated id and the internal date fields are not part
of the returned object. -/
def addCost (ledger : List CostRecord) (nextId : Nat) (cost : CostInput) (now : JSDate) :
    List CostRecord × AddCostResult :=
  let saved := costToSave nextId cost now
  (ledger ++ [saved],
   { sum := saved.sum
     currency := saved.currency
     category := saved.category
     description := saved.description
     id := none
     createdAt := none })

/-- index.getAll([y, m]) on the year_month index: all records whose stored
year and month equal the queried pair, in store order. -/
def queryYearMonth (ledger : List CostRecord) (y m : Int) : List CostRecord :=
  ledger.filter (fun c => c.year == y && c.month == m)

/-- One row of getReport costs[]: the four spec fields, the Date.day display
value, plus the extra UI fields sumInTarget and targetCurrency. -/
structure ReportRow where
  sum : JSNum
  currency : String
  category : String
  description : String
  dateDay : Int
  sumInTarget : JSNum
  targetCurrency : String
deriving Repr, DecidableEq

structure ReportTotal where
  currency : String
  total : ℚ
deriving Repr, DecidableEq

structure Report where
  year : Int
  month : Int
  costs : List ReportRow
  total : ReportTotal
deriving Repr, DecidableEq

/-- items.some((c) => normalizeCurrency(c.currency) !== targetCurrency),
src/src/lib/idb.js line 120. -/
def needsRatesFor (items : List CostRecord) (targetCurrency : String) : Bool :=
  items.any (fun c => normalizeCurrency c.currency != targetCurrency)

/-- The per-row converted amount of getReport (src/src/lib/idb.js lines
124-127): convert when rates were fetched, otherwise the original sum
unchanged. A throw inside convert propagates. -/
def rowConverted (needsRates : Bool) (rates : RateTable) (targetCurrency : String)
    (c : CostRecord) : Except String JSNum :=
  if needsRates then
    match convert c.sum c.currency targetCurrency rates with
    | Except.error e => Except.error e
    | Except.ok v => Except.ok (some v)
  else Except.ok c.sum

/-- One element of the costs array built by getReport (src/src/lib/idb.js
lines 123-143). Date.day is Number(c.day) with a fallback that re-parses
createdAt when the stored day is absent or 0; for records written by this
module addCost always stores a nonzero day, so the stored field is used. -/
def buildRow (targetCurrency : String) (needsRates : Bool) (rates : RateTable)
    (c : CostRecord) : Except String ReportRow :=
  match rowConverted needsRates rates targetCurrency c with
  | Except.error e => Except.error e
  | Except.ok conv =>
    Except.ok
      { sum := c.sum
        currency := c.currency
        category := c.category
        description := c.description
        dateDay := c.day
        sumInTarget := conv
        targetCurrency := targetCurrency }

/-- List.map through Except: a throw inside the mapped function rejects the
whole computation, exactly as a throw inside Array.prototype.map propagates
out of the enclosing async function. -/
def mapE {α β : Type} (f : α → Except String β) : List α → Except String (List β)
  | [] => Except.ok []
  | x :: xs =>
    match f x with
    | Except.error e => Except.error e
    | Except.ok y =>
      match mapE f xs with
      | Except.error e => Except.error e
      | Except.ok ys => Except.ok (y :: ys)

/-- The total reduce of getReport (src/src/lib/idb.js lines 146-149): sum of
the finite sumInTarget values, a non-finite value contributes nothing. The
source comment at line 145 reads: Total in target currency (no rounding
here). -/
def reportTotalValue (costs : List ReportRow) : ℚ :=
  costs.foldl
    (fun acc c =>
      match c.sumInTarget with
      | some v => acc + v
      | none => acc)
    0

/-- getReport from src/src/lib/idb.js lines 109-157. The rates argument is
the table fetchRates would deliver; it is consulted only when needsRates
holds. The returned total.total is the raw reduce value, unrounded. -/
def getReport (ledger : List CostRecord) (year month : Int) (currency : String)
    (rates : RateTable) : Except String Report :=
  let targetCurrency := normalizeCurrency currency
  let items := queryYearMonth ledger year month
  let needsRates := needsRatesFor items targetCurrency
  match mapE (buildRow targetCurrency needsRates rates) items with
  | Except.error e => Except.error e
  | Except.ok costs =>
    Except.ok
      { year := year
        month := month
        costs := costs
        total := { currency := targetCurrency, total := reportTotalValue costs } }

structure CategoryTotal where
  category : String
  total : ℚ
deriving Repr, DecidableEq

/-- map.set(cat, (map.get(cat) || 0) + value) on a JS Map: an existing key
keeps its position and accumulates, a new key is appended (JS Map preserves
first-insertion order). -/
def mapSetAdd : List (String × ℚ) → String → ℚ → List (String × ℚ)
  | [], k, v => [(k, v)]
  | (k₀, v₀) :: rest, k, v =>
    if k₀ = k then (k₀, v₀ + v) :: rest
    else (k₀, v₀) :: mapSetAdd rest k v

/-- One iteration of the getCategoryTotals loop (src/src/lib/idb.js lines
176-183): blank category falls back to the literal "Other" label via
String(c.category || "Other"), a non-finite sum is skipped, otherwise the
converted value is accumulated; a convert throw propagates. -/
def categoryStep (needsRates : Bool) (rates : RateTable) (targetCurrency : String)
    (acc : List (String × ℚ)) (c : CostRecord) : Except String (List (String × ℚ)) :=
  let cat := if c.category = "" then "Other" else c.category
  match c.sum with
  | none => Except.ok acc
  | some s =>
    if needsRates then
      match convert (some s) c.currency targetCurrency rates with
      | Except.error e => Except.error e
      | Except.ok value => Except.ok (mapSetAdd acc cat value)
    else Except.ok (mapSetAdd acc cat s)

/-- Fold through Except: a throw inside the loop body rejects the whole
computation. -/
def foldE {α β : Type} (f : β → α → Except String β) : β → List α → Except String β
  | b, [] => Except.ok b
  | b, x :: xs =>
    match f b x with
    | Except.error e => Except.error e
    | Except.ok b₁ => foldE f b₁ xs

/-- getCategoryTotals from src/src/lib/idb.js lines 159-189: empty period
returns [] before any rate handling; otherwise the accumulation loop runs
and the Map entries are emitted in insertion order as
{category, total} pairs, totals unrounded. -/
def getCategoryTotals (ledger : List CostRecord) (year month : Int) (currency : String)
    (rates : RateTable) : Except String (List CategoryTotal) :=
  let targetCurrency := normalizeCurrency currency
  let items := queryYearMonth ledger year month
  if items.isEmpty then Except.ok []
  else
    let needsRates := needsRatesFor items targetCurrency
    match foldE (categoryStep needsRates rates targetCurrency) [] items with
    | Except.error e => Except.error e
    | Except.ok acc =>
      Except.ok (acc.map (fun p => { category := p.1, total := p.2 }))

/-- Number(x) || 0 applied to a finite number (the totals produced by
getReport are always finite since the reduce only adds finite values): 0 is
falsy and maps to 0, every other value is kept. -/
def jsOrZero (t : ℚ) : ℚ := if t = 0 then 0 else t

/-- The loop counter values of the for loop in getYearMonthlyTotals. -/
def monthsOfYear : List Int := [1, 2, 3, 4, 5, 6, 7, 8, 9, 10, 11, 12]

/-- getYearMonthlyTotals from src/src/lib/idb.js lines 191-201: one getReport
per calendar month 1..12, pushing Number(r.total.total) || 0 in month order.
A failing month rejects the whole call. -/
def getYearMonthlyTotals (ledger : List CostRecord) (year : Int) (currency : String)
    (rates : RateTable) : Except String (List ℚ) :=
  mapE
    (fun m =>
      match getReport ledger year m currency rates with
      | Except.error e => Except.error e
      | Except.ok r => Except.ok (jsOrZero r.total.total))
    monthsOfYear

/-- Modelled from the spec: rounding a monetary value to 2 decimal places,
the Number(x.toFixed(2)) boundary operation mandated by the spec for
total.total and for each category total. It appears in the superseded source
variants (src/unnamed/part_001 line 226, src/unnamed/part_004 lines 141 and
162) but not in src/src/lib/idb.js. -/
def round2 (q : ℚ) : ℚ := (round (q * 100) : ℤ) / 100

/-- The sample rate table of the spec: {USD:1, GBP:0.6, EURO:0.7, ILS:3.4}. -/
def sampleRates : RateTable := fun c =>
  if c = "USD" then some 1
  else if c = "GBP" then some (3 / 5)
  else if c = "EURO" then some (7 / 10)
  else if c = "ILS" then some (17 / 5)
  else none

/-- An empty (or fully malformed) rate table: every lookup misses. -/
def emptyRates : RateTable := fun _ => none

end CostManager

namespace CostManager

/-- Concrete fixture: the 100 USD record of the spec example period. -/
def recC1a : CostRecord :=
  { id := 1, sum := some 100, currency := "USD", category := "Food"
    description := "groceries", createdAt := "2025-01-02T10:00:00.000Z"
    year := 2025, month := 1, day := 2 }

/-- Concrete fixture: the 340 ILS record of the spec example period. -/
def recC1b : CostRecord :=
  { id := 2, sum := some 340, currency := "ILS", category := "Rent"
    description := "rent", createdAt := "2025-01-05T10:00:00.000Z"
    year := 2025, month := 1, day := 5 }

/-- The spec example period: one 100 USD record and one 340 ILS record. -/
def demoLedgerC1 : List CostRecord := [recC1a, recC1b]

/-- Concrete fixture: a single 10 ILS record, whose USD value 10/3.4 = 50/17
has no finite decimal representation. -/
def recILS10 : CostRecord :=
  { id := 1, sum := some 10, currency := "ILS", category := "Food"
    description := "falafel", createdAt := "2025-01-03T10:00:00.000Z"
    year := 2025, month := 1, day := 3 }

def demoLedgerILS : List CostRecord := [recILS10]

/-- Concrete fixture: a record whose currency is absent from sampleRates. -/
def recXXX : CostRecord :=
  { id := 1, sum := some 10, currency := "XXX", category := "Misc"
    description := "mystery", createdAt := "2025-01-04T10:00:00.000Z"
    year := 2025, month := 1, day := 4 }

def demoLedgerXXX : List CostRecord := [recXXX]

/-- Concrete fixture: a single 10 USD record, used to exercise the EUR alias
path of getReport. -/
def recUSD10 : CostRecord :=
  { id := 1, sum := some 10, currency := "USD", category := "Misc"
    description := "book", createdAt := "2025-01-06T10:00:00.000Z"
    year := 2025, month := 1, day := 6 }

def demoLedgerUSD : List CostRecord := [recUSD10]

/-- Concrete fixture for category grouping: a blank-category 100 USD record,
a 340 ILS record and a 1 USD record sharing the category "Food". -/
def recBlankCat : CostRecord :=
  { id := 1, sum := some 100, currency := "USD", category := ""
    description := "unlabelled", createdAt := "2025-01-07T10:00:00.000Z"
    year := 2025, month := 1, day := 7 }

def recFoodILS : CostRecord :=
  { id := 2, sum := some 340, currency := "ILS", category := "Food"
    description := "market", createdAt := "2025-01-08T10:00:00.000Z"
    year := 2025, month := 1, day := 8 }

def recFoodUSD : CostRecord :=
  { id := 3, sum := some 1, currency := "USD", category := "Food"
    description := "gum", createdAt := "2025-01-09T10:00:00.000Z"
    year := 2025, month := 1, day := 9 }

def demoLedgerCat : List CostRecord := [recBlankCat, recFoodILS, recFoodUSD]

/-- Concrete fixture: a well-formed addCost input. -/
def inputLunch : CostInput :=
  { sum := some 25, currency := "USD", category := "Food", description := "lunch" }

/-- Concrete fixture: an input whose sum did not coerce to a finite number
(Number of it is NaN). -/
def inputBadSum : CostInput :=
  { sum := none, currency := "USD", category := "Food", description := "oops" }

/-- Concrete fixture: a capture instant (month0 is the 0-based getMonth
value, so the stored month is 3). -/
def dateMar4 : JSDate :=
  { iso := "2025-03-04T12:00:00.000Z", year := 2025, month0 := 2, day := 4 }

/-- The report getReport produces for the spec example period: rows keep the
original sums and currencies, the converted ILS row is worth exactly 100 USD,
and the total is exactly 200. -/
def reportC1 : Report :=
  { year := 2025, month := 1
    costs := [
      { sum := some 100, currency := "USD", category := "Food"
        description := "groceries", dateDay := 2, sumInTarget := some 100
        targetCurrency := "USD" },
      { sum := some 340, currency := "ILS", category := "Rent"
        description := "rent", dateDay := 5, sumInTarget := some 100
        targetCurrency := "USD" }]
    total := { currency := "USD", total := 200 } }

/-- The report getReport produces for a 10 USD record queried with the alias
"EUR": the target currency in the output is the normalized "EURO". -/
def reportEUR : Report :=
  { year := 2025, month := 1
    costs := [
      { sum := some 10, currency := "USD", category := "Misc"
        description := "book", dateDay := 6, sumInTarget := some 7
        targetCurrency := "EURO" }]
    total := { currency := "EURO", total := 7 } }

end CostManager

namespace CostManager

/-- Currency normalization is idempotent: a second application changes
nothing. -/
theorem normalizeCurrency_idem (c : String) :
    normalizeCurrency (normalizeCurrency c) = normalizeCurrency c := by
  by_cases h : c = "EUR" <;> simp [normalizeCurrency, h]

/-- A non-finite amount converts to 0 without consulting the table. -/
theorem convert_none (fromC toC : String) (rates : RateTable) :
    convert none fromC toC rates = Except.ok 0 := rfl

/-- Same currency after normalization: the finite amount is returned
unchanged, for every rate table. -/
theorem convert_same (x : ℚ) (fromC toC : String) (rates : RateTable)
    (h : normalizeCurrency fromC = normalizeCurrency toC) :
    convert (some x) fromC toC rates = Except.ok x := by
  unfold convert
  simp [h]

/-- Both rates present: convert computes the two-hop formula. -/
theorem convert_rates_ok (x : ℚ) (fromC toC : String) (rates : RateTable) (rf rt : ℚ)
    (hne : normalizeCurrency fromC ≠ normalizeCurrency toC)
    (hf : rates (normalizeCurrency fromC) = some rf)
    (ht : rates (normalizeCurrency toC) = some rt) :
    convert (some x) fromC toC rates = Except.ok (x / rf * rt) := by
  unfold convert
  simp [hne, hf, ht]

/-- With distinct normalized currencies, convert throws exactly when one of
the two rate lookups misses. -/
theorem convert_error_iff (x : ℚ) (fromC toC : String) (rates : RateTable)
    (hne : normalizeCurrency fromC ≠ normalizeCurrency toC) :
    (∃ e, convert (some x) fromC toC rates = Except.error e) ↔
      (rates (normalizeCurrency fromC) = none ∨ rates (normalizeCurrency toC) = none) := by
  unfold convert
  cases hf : rates (normalizeCurrency fromC) <;>
    cases ht : rates (normalizeCurrency toC) <;>
      simp [hne, hf, ht]

/-- A convert throw on a finite amount implies the currencies differ after
normalization (otherwise the same-currency early return fires). -/
theorem convert_error_ne (x : ℚ) (fromC toC : String) (rates : RateTable) (e : String)
    (h : convert (some x) fromC toC rates = Except.error e) :
    normalizeCurrency fromC ≠ normalizeCurrency toC := by
  intro hEq
  rw [convert_same x fromC toC rates hEq] at h
  cases h

/-- mapE preserves length on success. -/
theorem mapE_ok_length {α β : Type} (f : α → Except String β) :
    ∀ (l : List α) (out : List β), mapE f l = Except.ok out → out.length = l.length := by
  intro l
  induction l with
  | nil =>
    intro out h
    simp only [mapE, Except.ok.injEq] at h
    simp [← h]
  | cons x xs ih =>
    intro out h
    simp only [mapE] at h
    cases hx : f x with
    | error e => simp [hx] at h
    | ok y =>
      simp only [hx] at h
      cases hxs : mapE f xs with
      | error e => simp [hxs] at h
      | ok ys =>
        simp only [hxs, Except.ok.injEq] at h
        subst h
        have hlen := ih ys hxs
        simp [hlen]

/-- Every element of a successful mapE output comes from some input element. -/
theorem mapE_ok_mem {α β : Type} (f : α → Except String β) :
    ∀ (l : List α) (out : List β), mapE f l = Except.ok out →
      ∀ y ∈ out, ∃ x ∈ l, f x = Except.ok y := by
  intro l
  induction l with
  | nil =>
    intro out h y hy
    simp only [mapE, Except.ok.injEq] at h
    subst h
    simp at hy
  | cons x xs ih =>
    intro out h y hy
    simp only [mapE] at h
    cases hx : f x with
    | error e => simp [hx] at h
    | ok z =>
      simp only [hx] at h
      cases hxs : mapE f xs with
      | error e => simp [hxs] at h
      | ok zs =>
        simp only [hxs, Except.ok.injEq] at h
        subst h
        rcases List.mem_cons.mp hy with hz | hz
        · exact ⟨x, List.mem_cons_self x xs, by rw [hx, hz]⟩
        · rcases ih zs hxs y hz with ⟨x₁, hx₁, hfx₁⟩
          exact ⟨x₁, List.mem_cons_of_mem x hx₁, hfx₁⟩

/-- A throw on any input element rejects the whole mapE. -/
theorem mapE_error_of_mem {α β : Type} (f : α → Except String β) {x : α} {e : String} :
    ∀ (l : List α), x ∈ l → f x = Except.error e →
      ∃ e₁, mapE f l = Except.error e₁ := by
  intro l
  induction l with
  | nil => intro hx; simp at hx
  | cons y ys ih =>
    intro hx hfx
    rcases List.mem_cons.mp hx with h | h
    · subst h
      exact ⟨e, by simp [mapE, hfx]⟩
    · cases hy : f y with
      | error e₂ => exact ⟨e₂, by simp [mapE, hy]⟩
      | ok z =>
        rcases ih h hfx with ⟨e₁, he₁⟩
        exact ⟨e₁, by simp [mapE, hy, he₁]⟩

/-- Pointwise reading of a successful mapE: the output at index i is f of the
input at index i. -/
theorem mapE_ok_get? {α β : Type} (f : α → Except String β) :
    ∀ (l : List α) (out : List β) (i : Nat) (a : α),
      mapE f l = Except.ok out → l.get? i = some a →
      ∃ b, f a = Except.ok b ∧ out.get? i = some b := by
  intro l
  induction l with
  | nil => intro out i a _ hget; simp at hget
  | cons x xs ih =>
    intro out i a h hget
    simp only [mapE] at h
    cases hx : f x with
    | error e => simp [hx] at h
    | ok y =>
      simp only [hx] at h
      cases hxs : mapE f xs with
      | error e => simp [hxs] at h
      | ok ys =>
        simp only [hxs, Except.ok.injEq] at h
        subst h
        cases i with
        | zero =>
          simp only [List.get?] at hget
          cases hget
          exact ⟨y, hx, rfl⟩
        | succ j =>
          simp only [List.get?] at hget
          exact ih ys j a hxs hget

/-- A loop body that throws on some visited element rejects the whole foldE,
whatever the accumulator. -/
theorem foldE_error_of_mem {α β : Type} (f : β → α → Except String β) {x : α}
    (hx : ∀ b, ∃ e, f b x = Except.error e) :
    ∀ (l : List α), x ∈ l → ∀ b₀, ∃ e₁, foldE f b₀ l = Except.error e₁ := by
  intro l
  induction l with
  | nil => intro h; simp at h
  | cons y ys ih =>
    intro h b₀
    rcases List.mem_cons.mp h with hxy | hmem
    · rcases hx b₀ with ⟨e, he⟩
      subst hxy
      exact ⟨e, by simp [foldE, he]⟩
    · cases hy : f b₀ y with
      | error e => exact ⟨e, by simp [foldE, hy]⟩
      | ok b₁ =>
        rcases ih hmem b₁ with ⟨e₁, he₁⟩
        exact ⟨e₁, by simp [foldE, hy, he₁]⟩

/-- On the finite totals this code produces, Number(x) || 0 is the
identity. -/
theorem jsOrZero_eq (t : ℚ) : jsOrZero t = t := by
  unfold jsOrZero
  split <;> simp_all

/-- Inversion of a successful getReport: the costs come from the row builder
and the returned object is assembled from them with the normalized target
currency and the unrounded reduce total. -/
theorem getReport_ok_inv {ledger : List CostRecord} {y m : Int} {cur : String}
    {rates : RateTable} {r : Report}
    (h : getReport ledger y m cur rates = Except.ok r) :
    mapE (buildRow (normalizeCurrency cur)
        (needsRatesFor (queryYearMonth ledger y m) (normalizeCurrency cur)) rates)
        (queryYearMonth ledger y m) = Except.ok r.costs
    ∧ r.year = y ∧ r.month = m
    ∧ r.total.currency = normalizeCurrency cur
    ∧ r.total.total = reportTotalValue r.costs := by
  have h₂ : (match mapE (buildRow (normalizeCurrency cur)
        (needsRatesFor (queryYearMonth ledger y m) (normalizeCurrency cur)) rates)
        (queryYearMonth ledger y m) with
      | Except.error e => Except.error e
      | Except.ok costs =>
        Except.ok
          { year := y, month := m, costs := costs,
            total := { currency := normalizeCurrency cur,
                       total := reportTotalValue costs } }) = Except.ok r := h
  cases hm : mapE (buildRow (normalizeCurrency cur)
      (needsRatesFor (queryYearMonth ledger y m) (normalizeCurrency cur)) rates)
      (queryYearMonth ledger y m) with
  | error e => rw [hm] at h₂; cases h₂
  | ok costs =>
    rw [hm] at h₂
    replace h₂ : Except.ok
        { year := y, month := m, costs := costs,
          total := { currency := normalizeCurrency cur,
                     total := reportTotalValue costs } } = Except.ok r := h₂
    injection h₂ with h₃
    subst h₃
    exact ⟨rfl, rfl, rfl, rfl, rfl⟩

/-- A successful row keeps the targetCurrency it was built with. -/
theorem buildRow_ok_target {targetCurrency : String} {needsRates : Bool}
    {rates : RateTable} {c : CostRecord} {row : ReportRow}
    (h : buildRow targetCurrency needsRates rates c = Except.ok row) :
    row.targetCurrency = targetCurrency := by
  unfold buildRow at h
  cases hc : rowConverted needsRates rates targetCurrency c with
  | error e => rw [hc] at h; cases h
  | ok conv =>
    rw [hc] at h
    simp only [Except.ok.injEq] at h
    subst h
    rfl

/-- getReport written with its local bindings expanded, for rewriting. -/
theorem getReport_def (ledger : List CostRecord) (y m : Int) (cur : String)
    (rates : RateTable) :
    getReport ledger y m cur rates =
      match mapE (buildRow (normalizeCurrency cur)
          (needsRatesFor (queryYearMonth ledger y m) (normalizeCurrency cur)) rates)
          (queryYearMonth ledger y m) with
      | Except.error e => Except.error e
      | Except.ok costs =>
        Except.ok
          { year := y, month := m, costs := costs,
            total := { currency := normalizeCurrency cur,
                       total := reportTotalValue costs } } := rfl

/-- getCategoryTotals written with its local bindings expanded, for
rewriting. -/
theorem getCategoryTotals_def (ledger : List CostRecord) (y m : Int) (cur : String)
    (rates : RateTable) :
    getCategoryTotals ledger y m cur rates =
      (if (queryYearMonth ledger y m).isEmpty then Except.ok []
       else
        match foldE (categoryStep
            (needsRatesFor (queryYearMonth ledger y m) (normalizeCurrency cur)) rates
            (normalizeCurrency cur)) [] (queryYearMonth ledger y m) with
        | Except.error e => Except.error e
        | Except.ok acc =>
          Except.ok (acc.map (fun p => { category := p.1, total := p.2 }))) := rfl

/-- getYearMonthlyTotals is the exception-propagating map of the per-month
report total over the twelve loop months. -/
theorem getYearMonthlyTotals_def (ledger : List CostRecord) (y : Int) (cur : String)
    (rates : RateTable) :
    getYearMonthlyTotals ledger y cur rates =
      mapE
        (fun m =>
          match getReport ledger y m cur rates with
          | Except.error e => Except.error e
          | Except.ok r => Except.ok (jsOrZero r.total.total))
        monthsOfYear := rfl

end CostManager

namespace CostManager

/-- C4: for every finite amount, every pair of currencies that differ after
normalization, and every rate table holding numeric rates for both, convert
equals amount / rates[fromCurrency] * rates[toCurrency]; with the sample
table, 10 ILS in USD is 10/3.4 = 50/17 and 10 USD in ILS is 34. -/
theorem C4_convert_two_hop_formula :
    (∀ (x : ℚ) (fromC toC : String) (rates : RateTable) (rf rt : ℚ),
        normalizeCurrency fromC ≠ normalizeCurrency toC →
        rates (normalizeCurrency fromC) = some rf →
        rates (normalizeCurrency toC) = some rt →
        convert (some x) fromC toC rates = Except.ok (x / rf * rt))
    ∧ convert (some 10) "ILS" "USD" sampleRates = Except.ok (50 / 17)
    ∧ convert (some 10) "USD" "ILS" sampleRates = Except.ok 34 := by
  refine ⟨?_, by simp [convert, sampleRates, normalizeCurrency] <;> norm_num,
    by simp [convert, sampleRates, normalizeCurrency] <;> norm_num⟩
  intro x fromC toC rates rf rt hne hf ht
  exact convert_rates_ok x fromC toC rates rf rt hne hf ht

/-- Witness for C4 at the ILS to USD sample instance. -/
theorem C4_convert_two_hop_formula_witness :
    normalizeCurrency "ILS" ≠ normalizeCurrency "USD"
    ∧ sampleRates (normalizeCurrency "ILS") = some (17 / 5)
    ∧ sampleRates (normalizeCurrency "USD") = some 1
    ∧ convert (some 10) "ILS" "USD" sampleRates = Except.ok ((10 : ℚ) / (17 / 5) * 1) :=
  ⟨by decide, by simp [sampleRates, normalizeCurrency], by simp [sampleRates, normalizeCurrency],
   C4_convert_two_hop_formula.1 10 "ILS" "USD" sampleRates (17 / 5) 1 (by decide)
     (by simp [sampleRates, normalizeCurrency]) (by simp [sampleRates, normalizeCurrency])⟩

/-- C6: when the two currency arguments agree after normalization, convert
returns the finite amount unchanged for every rate table, including an empty
or malformed one, without any lookup. -/
theorem C6_same_currency_identity :
    ∀ (x : ℚ) (fromC toC : String) (rates : RateTable),
      normalizeCurrency fromC = normalizeCurrency toC →
      convert (some x) fromC toC rates = Except.ok x := by
  intro x fromC toC rates h
  exact convert_same x fromC toC rates h

/-- Witness for C6 on the empty table, through the EUR alias. -/
theorem C6_same_currency_identity_witness :
    normalizeCurrency "EUR" = normalizeCurrency "EURO"
    ∧ convert (some 5) "EUR" "EURO" emptyRates = Except.ok 5 :=
  ⟨by decide, C6_same_currency_identity 5 "EUR" "EURO" emptyRates (by decide)⟩

/-- C5: with distinct normalized currencies and a finite amount, convert
throws exactly when one of the two rate lookups is absent or non-numeric;
and such a throw on any queried record rejects the whole getReport and the
whole getCategoryTotals call instead of skipping the record. -/
theorem C5_unsupported_currency_fails_call :
    (∀ (x : ℚ) (fromC toC : String) (rates : RateTable),
        normalizeCurrency fromC ≠ normalizeCurrency toC →
        ((∃ e, convert (some x) fromC toC rates = Except.error e) ↔
          rates (normalizeCurrency fromC) = none ∨ rates (normalizeCurrency toC) = none))
    ∧ (∀ (ledger : List CostRecord) (y m : Int) (cur : String) (rates : RateTable)
          (c : CostRecord) (s : ℚ) (e : String),
        c ∈ queryYearMonth ledger y m →
        c.sum = some s →
        convert (some s) c.currency (normalizeCurrency cur) rates = Except.error e →
        (∃ e₁, getReport ledger y m cur rates = Except.error e₁)
        ∧ (∃ e₂, getCategoryTotals ledger y m cur rates = Except.error e₂)) := by
  constructor
  · intro x fromC toC rates hne
    exact convert_error_iff x fromC toC rates hne
  · intro ledger y m cur rates c s e hc hsum hconv
    have hne : normalizeCurrency c.currency ≠ normalizeCurrency (normalizeCurrency cur) :=
      convert_error_ne s c.currency (normalizeCurrency cur) rates e hconv
    rw [normalizeCurrency_idem] at hne
    have hNeeds : needsRatesFor (queryYearMonth ledger y m) (normalizeCurrency cur) = true := by
      unfold needsRatesFor
      rw [List.any_eq_true]
      exact ⟨c, hc, by simpa [bne_iff_ne] using hne⟩
    constructor
    · have hrow : buildRow (normalizeCurrency cur)
          (needsRatesFor (queryYearMonth ledger y m) (normalizeCurrency cur)) rates c
          = Except.error e := by
        rw [hNeeds]
        unfold buildRow rowConverted
        simp [hsum, hconv]
      rcases mapE_error_of_mem _ (queryYearMonth ledger y m) hc hrow with ⟨e₁, h₁⟩
      exact ⟨e₁, by rw [getReport_def, h₁]⟩
    · have hEmpty : (queryYearMonth ledger y m).isEmpty = false := by
        cases hq : queryYearMonth ledger y m with
        | nil => rw [hq] at hc; simp at hc
        | cons a as => simp
      have hstep : ∀ b, ∃ e₀, categoryStep
          (needsRatesFor (queryYearMonth ledger y m) (normalizeCurrency cur)) rates
          (normalizeCurrency cur) b c = Except.error e₀ := by
        intro b
        refine ⟨e, ?_⟩
        rw [hNeeds]
        unfold categoryStep
        simp [hsum, hconv]
      rcases foldE_error_of_mem _ hstep (queryYearMonth ledger y m) hc [] with ⟨e₂, h₂⟩
      refine ⟨e₂, ?_⟩
      simp [getCategoryTotals_def, hEmpty, h₂]

/-- Witness for C5 on a record whose currency is absent from the sample
table. -/
theorem C5_unsupported_currency_fails_call_witness :
    (∃ e, convert (some 10) "XXX" "USD" sampleRates = Except.error e)
    ∧ (∃ e₁, getReport demoLedgerXXX 2025 1 "USD" sampleRates = Except.error e₁)
    ∧ (∃ e₂, getCategoryTotals demoLedgerXXX 2025 1 "USD" sampleRates = Except.error e₂) := by
  have h₂ := C5_unsupported_currency_fails_call.2 demoLedgerXXX 2025 1 "USD" sampleRates
    recXXX 10 "Unsupported currency in rates response." (by decide) rfl
    (by simp [convert, recXXX, normalizeCurrency, sampleRates])
  have h₁ := (C5_unsupported_currency_fails_call.1 10 "XXX" "USD" sampleRates
    (by decide)).mpr (Or.inl (by decide))
  exact ⟨h₁, h₂.1, h₂.2⟩

/-- C1 (amended): getReport sets total.total to the raw, unrounded sum of
the per-row converted amounts — src/src/lib/idb.js applies no rounding at
the total boundary (per-row values do keep full precision until summed) —
and for a period containing exactly the records {sum:100, currency:USD} and
{sum:340, currency:ILS} with the sample table and target USD, the exact sum
is 200, so the reported total is 200 as the spec example requires. -/
theorem C1_total_unrounded_sum :
    (∀ (ledger : List CostRecord) (y m : Int) (cur : String) (rates : RateTable) (r : Report),
        getReport ledger y m cur rates = Except.ok r →
        r.total.total = reportTotalValue r.costs)
    ∧ getReport demoLedgerC1 2025 1 "USD" sampleRates = Except.ok reportC1 := by
  constructor
  · intro ledger y m cur rates r h
    exact (getReport_ok_inv h).2.2.2.2
  · simp [getReport_def, queryYearMonth, demoLedgerC1, recC1a, recC1b, needsRatesFor, mapE,
      buildRow, rowConverted, convert, normalizeCurrency, sampleRates, reportTotalValue,
      reportC1] <;> norm_num

/-- Witness for C1 at the spec example period. -/
theorem C1_total_unrounded_sum_witness :
    getReport demoLedgerC1 2025 1 "USD" sampleRates = Except.ok reportC1
    ∧ reportC1.total.total = reportTotalValue reportC1.costs :=
  ⟨C1_total_unrounded_sum.2,
   C1_total_unrounded_sum.1 demoLedgerC1 2025 1 "USD" sampleRates reportC1
     C1_total_unrounded_sum.2⟩

/-- C1 counterexample: the claim says total.total is the per-row sum rounded
to 2 decimal places at the final boundary. For a period holding a single
{sum:10, currency:ILS} record queried in USD, the per-row sum is 50/17,
whose 2-decimal rounding is 147/50, yet getReport reports exactly 50/17:
no rounding is applied (the value is not even representable in 2 decimals). -/
theorem C1_counterexample :
    (getReport demoLedgerILS 2025 1 "USD" sampleRates).map (fun r => r.total.total)
      = Except.ok (50 / 17)
    ∧ round2 (50 / 17) = 147 / 50
    ∧ (50 / 17 : ℚ) ≠ 147 / 50 := by
  refine ⟨?_, ?_, by norm_num⟩
  · simp [Except.map, getReport_def, queryYearMonth, demoLedgerILS, recILS10, needsRatesFor,
      mapE, buildRow, rowConverted, convert, normalizeCurrency, sampleRates, reportTotalValue]
      <;> norm_num
  · unfold round2
    rw [round_eq]
    norm_num

/-- C7 (amended): getCategoryTotals groups the queried records by category,
mapping a blank category to the literal "Other" label, sums the converted
amounts per group in first-insertion order, and returns each group total raw
and unrounded — src/src/lib/idb.js applies no per-group rounding; an empty
period yields the empty sequence. -/
theorem C7_category_grouping_unrounded :
    (∀ (ledger : List CostRecord) (y m : Int) (cur : String) (rates : RateTable),
        queryYearMonth ledger y m = [] →
        getCategoryTotals ledger y m cur rates = Except.ok [])
    ∧ getCategoryTotals demoLedgerCat 2025 1 "USD" sampleRates =
        Except.ok [{ category := "Other", total := 100 }, { category := "Food", total := 101 }] := by
  constructor
  · intro ledger y m cur rates h
    rw [getCategoryTotals_def, h]
    rfl
  · simp [getCategoryTotals_def, queryYearMonth, demoLedgerCat, recBlankCat, recFoodILS,
      recFoodUSD, needsRatesFor, foldE, categoryStep, mapSetAdd, convert, normalizeCurrency,
      sampleRates] <;> norm_num

/-- Witness for C7 at the empty ledger. -/
theorem C7_category_grouping_unrounded_witness :
    queryYearMonth ([] : List CostRecord) 2025 1 = []
    ∧ getCategoryTotals [] 2025 1 "USD" sampleRates = Except.ok [] :=
  ⟨rfl, C7_category_grouping_unrounded.1 [] 2025 1 "USD" sampleRates rfl⟩

/-- C7 counterexample: the claim says each group total is rounded to 2
decimal places. For a single {sum:10, currency:ILS, category:Food} record
queried in USD, the Food total reported is exactly 50/17, which differs from
its 2-decimal rounding 147/50: no rounding is applied. -/
theorem C7_counterexample :
    getCategoryTotals demoLedgerILS 2025 1 "USD" sampleRates
      = Except.ok [{ category := "Food", total := 50 / 17 }]
    ∧ round2 (50 / 17) ≠ (50 / 17 : ℚ) := by
  constructor
  · simp [getCategoryTotals_def, queryYearMonth, demoLedgerILS, recILS10, needsRatesFor,
      foldE, categoryStep, mapSetAdd, convert, normalizeCurrency, sampleRates] <;> norm_num
  · unfold round2
    rw [round_eq]
    norm_num

/-- C2 (amended): addCost persists a record stamped with
createdAt/year/month/day taken from the single Date value read at entry and
echoes back exactly the four coerced input fields; the generated id (and the
internal date fields) are not part of the returned object. -/
theorem C2_addCost_persists_and_echoes :
    ∀ (ledger : List CostRecord) (nextId : Nat) (cost : CostInput) (now : JSDate),
      (addCost ledger nextId cost now).1 = ledger ++ [costToSave nextId cost now]
      ∧ (costToSave nextId cost now).createdAt = now.iso
      ∧ (costToSave nextId cost now).year = now.year
      ∧ (costToSave nextId cost now).month = now.month0 + 1
      ∧ (costToSave nextId cost now).day = now.day
      ∧ (costToSave nextId cost now).id = nextId
      ∧ (addCost ledger nextId cost now).2 =
          { sum := cost.sum, currency := cost.currency, category := cost.category,
            description := cost.description, id := none, createdAt := none } := by
  intro ledger nextId cost now
  exact ⟨rfl, rfl, rfl, rfl, rfl, rfl, rfl⟩

/-- C2 counterexample: the claim says addCost returns the full stored record
including the store-generated id. At a concrete input the stored record
carries id 1, but the object addCost returns has no id key at all (reading
it yields undefined), so the return value is only the four input fields. -/
theorem C2_counterexample :
    (addCost [] 1 inputLunch dateMar4).2.id = none
    ∧ (addCost [] 1 inputLunch dateMar4).1 = [costToSave 1 inputLunch dateMar4]
    ∧ (costToSave 1 inputLunch dateMar4).id = 1 :=
  ⟨rfl, rfl, rfl⟩

/-- C3 (amended): addCost performs no validation of sum: an input whose sum
does not coerce to a finite number is persisted anyway, as a record whose
stored sum is NaN; such a record then contributes exactly zero to a report
total, because the read paths guard every accumulation with Number.isFinite
and convert maps a non-finite amount to 0. -/
theorem C3_nan_sum_stored_not_rejected :
    ∀ (ledger : List CostRecord) (nextId : Nat) (cost : CostInput) (now : JSDate),
      cost.sum = none →
      (addCost ledger nextId cost now).1 = ledger ++ [costToSave nextId cost now]
      ∧ (costToSave nextId cost now).sum = none
      ∧ (∀ (cur : String) (rates : RateTable),
          (getReport (addCost [] nextId cost now).1 now.year (now.month0 + 1) cur rates).map
            (fun r => r.total.total) = Except.ok 0) := by
  intro ledger nextId cost now hsum
  refine ⟨rfl, by simp [costToSave, hsum], ?_⟩
  intro cur rates
  have hitems : queryYearMonth (addCost [] nextId cost now).1 now.year (now.month0 + 1)
      = [costToSave nextId cost now] := by
    simp [addCost, queryYearMonth, costToSave]
  rw [getReport_def, hitems]
  cases hb : needsRatesFor [costToSave nextId cost now] (normalizeCurrency cur) with
  | false =>
    simp [mapE, buildRow, rowConverted, costToSave, hsum, reportTotalValue, Except.map]
  | true =>
    simp [mapE, buildRow, rowConverted, convert, costToSave, hsum, reportTotalValue, Except.map]

/-- Witness for C3 at a concrete NaN-sum input. -/
theorem C3_nan_sum_stored_not_rejected_witness :
    inputBadSum.sum = none
    ∧ (addCost [] 1 inputBadSum dateMar4).1 = [] ++ [costToSave 1 inputBadSum dateMar4]
    ∧ (costToSave 1 inputBadSum dateMar4).sum = none
    ∧ (getReport (addCost [] 1 inputBadSum dateMar4).1 dateMar4.year (dateMar4.month0 + 1)
        "ILS" sampleRates).map (fun r => r.total.total) = Except.ok 0 := by
  have h := C3_nan_sum_stored_not_rejected [] 1 inputBadSum dateMar4 rfl
  exact ⟨rfl, h.1, h.2.1, h.2.2 "ILS" sampleRates⟩

/-- C3 counterexample: the claim says an input with a non-coercible sum is
rejected before any write, leaving the ledger unchanged. At a concrete such
input the write happens: the ledger grows from empty to one record, whose
stored sum is NaN. -/
theorem C3_counterexample :
    (addCost [] 1 inputBadSum dateMar4).1 ≠ []
    ∧ (addCost [] 1 inputBadSum dateMar4).1 = [costToSave 1 inputBadSum dateMar4]
    ∧ (costToSave 1 inputBadSum dateMar4).sum = none := by
  refine ⟨?_, rfl, rfl⟩
  simp [addCost]

/-- C8: a successful getYearMonthlyTotals returns exactly 12 numbers, and
for each calendar month m in 1..12 the entry at index m-1 is the total.total
of getReport for that month, in month order; the Number(x) || 0 applied by
the loop is the identity on the always finite report totals. -/
theorem C8_twelve_monthly_totals :
    ∀ (ledger : List CostRecord) (y : Int) (cur : String) (rates : RateTable) (l : List ℚ),
      getYearMonthlyTotals ledger y cur rates = Except.ok l →
      l.length = 12
      ∧ ∀ i : Nat, i < 12 →
          ∃ r, getReport ledger y ((i : Int) + 1) cur rates = Except.ok r
            ∧ l.get? i = some r.total.total := by
  intro ledger y cur rates l h
  have h₁ : mapE (fun m =>
      match getReport ledger y m cur rates with
      | Except.error e => Except.error e
      | Except.ok r => Except.ok (jsOrZero r.total.total)) monthsOfYear = Except.ok l := h
  constructor
  · have hlen := mapE_ok_length _ monthsOfYear l h₁
    simpa [monthsOfYear] using hlen
  · intro i hi
    have hmon : monthsOfYear.get? i = some ((i : Int) + 1) := by
      interval_cases i <;> rfl
    rcases mapE_ok_get? _ monthsOfYear l i ((i : Int) + 1) h₁ hmon with ⟨b, hb, hl⟩
    cases hrep : getReport ledger y ((i : Int) + 1) cur rates with
    | error e =>
      rw [hrep] at hb
      simp at hb
    | ok r =>
      refine ⟨r, rfl, ?_⟩
      rw [hrep] at hb
      replace hb : Except.ok (jsOrZero r.total.total) = Except.ok b := hb
      injection hb with hb
      rw [hl, ← hb, jsOrZero_eq]

/-- Witness for C8 on the empty ledger: twelve exact zeros. -/
theorem C8_twelve_monthly_totals_witness :
    getYearMonthlyTotals [] 2024 "USD" emptyRates
      = Except.ok [0, 0, 0, 0, 0, 0, 0, 0, 0, 0, 0, 0]
    ∧ ([0, 0, 0, 0, 0, 0, 0, 0, 0, 0, 0, 0] : List ℚ).length = 12
    ∧ (∃ r, getReport [] 2024 (((0 : Nat) : Int) + 1) "USD" emptyRates = Except.ok r
          ∧ ([0, 0, 0, 0, 0, 0, 0, 0, 0, 0, 0, 0] : List ℚ).get? 0 = some r.total.total) := by
  have heval : getYearMonthlyTotals [] 2024 "USD" emptyRates
      = Except.ok [0, 0, 0, 0, 0, 0, 0, 0, 0, 0, 0, 0] := by
    simp [getYearMonthlyTotals_def, monthsOfYear, mapE, getReport_def, queryYearMonth,
      needsRatesFor, reportTotalValue, jsOrZero]
  have h := C8_twelve_monthly_totals [] 2024 "USD" emptyRates _ heval
  exact ⟨heval, h.1, h.2 0 (by norm_num)⟩

/-- C9: getReport normalizes the requested target currency (EUR becomes
EURO, anything else is kept verbatim) before any comparison or lookup, and
the normalized code is what appears as total.currency and as every row
targetCurrency field. -/
theorem C9_eur_alias_normalization :
    normalizeCurrency "EUR" = "EURO"
    ∧ (∀ c : String, c ≠ "EUR" → normalizeCurrency c = c)
    ∧ (∀ (ledger : List CostRecord) (y m : Int) (cur : String) (rates : RateTable) (r : Report),
        getReport ledger y m cur rates = Except.ok r →
        r.total.currency = normalizeCurrency cur
        ∧ ∀ row ∈ r.costs, row.targetCurrency = normalizeCurrency cur) := by
  refine ⟨rfl, ?_, ?_⟩
  · intro c hc
    simp [normalizeCurrency, hc]
  · intro ledger y m cur rates r h
    rcases getReport_ok_inv h with ⟨hmap, _, _, htc, _⟩
    refine ⟨htc, ?_⟩
    intro row hrow
    rcases mapE_ok_mem _ _ _ hmap row hrow with ⟨c, _, hc⟩
    exact buildRow_ok_target hc

/-- Witness for C9: a 10 USD record queried with the alias EUR yields a
report denominated in EURO. -/
theorem C9_eur_alias_normalization_witness :
    getReport demoLedgerUSD 2025 1 "EUR" sampleRates = Except.ok reportEUR
    ∧ reportEUR.total.currency = normalizeCurrency "EUR"
    ∧ normalizeCurrency "USD" = "USD" := by
  have heval : getReport demoLedgerUSD 2025 1 "EUR" sampleRates = Except.ok reportEUR := by
    simp [getReport_def, queryYearMonth, demoLedgerUSD, recUSD10, needsRatesFor, mapE,
      buildRow, rowConverted, convert, normalizeCurrency, sampleRates, reportTotalValue,
      reportEUR] <;> norm_num
  exact ⟨heval,
    (C9_eur_alias_normalization.2.2 demoLedgerUSD 2025 1 "EUR" sampleRates reportEUR heval).1,
    C9_eur_alias_normalization.2.1 "USD" (by decide)⟩

/-- C10: the record addCost persists is exactly the four coerced input
fields plus id and the date fields createdAt/year/month/day all stamped from
the one Date value read at entry (month 1-based); addCost only appends, so
every previously stored record survives unchanged, and the read operations
return stored records without modifying the ledger (queries are filters over
it). -/
theorem C10_record_invariant :
    ∀ (ledger : List CostRecord) (nextId : Nat) (cost : CostInput) (now : JSDate),
      (addCost ledger nextId cost now).1 = ledger ++ [costToSave nextId cost now]
      ∧ costToSave nextId cost now =
          { id := nextId, sum := cost.sum, currency := cost.currency,
            category := cost.category, description := cost.description,
            createdAt := now.iso, year := now.year, month := now.month0 + 1, day := now.day }
      ∧ (∀ r ∈ ledger, r ∈ (addCost ledger nextId cost now).1)
      ∧ (∀ (y m : Int), ∀ c ∈ queryYearMonth ledger y m, c ∈ ledger) := by
  intro ledger nextId cost now
  refine ⟨rfl, rfl, ?_, ?_⟩
  · intro r hr
    exact List.mem_append_left _ hr
  · intro y m c hc
    exact List.mem_of_mem_filter hc

/-- Witness for C10 at a concrete ledger, input and instant. -/
theorem C10_record_invariant_witness :
    (addCost demoLedgerC1 3 inputLunch dateMar4).1
      = demoLedgerC1 ++ [costToSave 3 inputLunch dateMar4]
    ∧ recC1a ∈ (addCost demoLedgerC1 3 inputLunch dateMar4).1
    ∧ recC1a ∈ demoLedgerC1 := by
  have h := C10_record_invariant demoLedgerC1 3 inputLunch dateMar4
  exact ⟨h.1, h.2.2.1 recC1a (by decide), h.2.2.2 2025 1 recC1a (by decide)⟩

end CostManager

